import Mathlib

/-
Verification of the apiserver root-dispatch subsystem: session state,
authorization helpers, the anonymous root, the facade registry lookup
(`lookupMethod` / `apiRoot.FindMethod`), the lazily-constructed per-connection
object cache with its double-checked-locking discipline, resource teardown,
and `DescribeFacades`.

The Go code is embedded shallowly: machine state is passed explicitly,
fallible operations return `Except`, and a Go runtime panic (nil interface
method call) is modelled as an `Except.error` of type `GoCrash`.
-/

/-- Modelled from the source use of gopkg.in/juju/names.v2: an entity tag is a
typed identifier.  Go compares tags with `==`, which is structural equality on
the concrete tag struct (dynamic type plus identifier). -/
inductive Tag where
  | machine (id : String)
  | unit (id : String)
  | user (id : String)
  | application (id : String)
deriving DecidableEq

/-- The identity kind of a tag, as named by the specification. -/
def Tag.kind : Tag → String
  | .machine _ => "machine"
  | .unit _ => "unit"
  | .user _ => "user"
  | .application _ => "application"

/-- A `state.Entity`: the authenticated entity, exposing its own tag. -/
structure Entity where
  tag : Tag
deriving DecidableEq

/-- A Go runtime fault.  `nilEntityDeref` models calling a method on a nil
interface value (here: `r.entity.Tag()` with `entity` still nil, i.e. before
login). -/
inductive GoCrash where
  | nilEntityDeref
deriving DecidableEq

/-- Modelled from the spec: a resource handle in the session resource table.
`common.StringResource` and friends are not under src/; a resource is reduced
to an opaque identifier, and stopping it is observed through a stop log. -/
abbrev Resource := String

/-- Modelled from the spec: `common.Resources`, the connection-scoped resource
table (not under src/; src only calls `RegisterNamed` and `StopAll`).  Per the
spec, entries are registered under unique names and every entry is stopped
exactly once when the session ends, even if the kill path runs more than once:
`StopAll` stops each current entry and empties the table, so a repeated
`StopAll` finds nothing left to stop.  Each individual stop is recorded in
`stopLog`, in order, so that double stops would be observable. -/
structure Resources where
  resources : List (String × Resource)
  stopLog : List Resource
deriving DecidableEq

/-- Modelled from the spec: `RegisterNamed` fails if the name is already
registered, otherwise appends the entry to the table. -/
def Resources.RegisterNamed (rs : Resources) (name : String) (res : Resource) :
    Except String Resources :=
  if (rs.resources.map Prod.fst).contains name then
    .error "resource name collision"
  else
    .ok { rs with resources := rs.resources ++ [(name, res)] }

/-- Modelled from the spec: `StopAll` stops every registered resource
(best-effort, failures independent) and clears the table.  The table's own
lock makes the whole operation atomic with respect to other table
operations, so concurrent invocations serialize. -/
def Resources.StopAll (rs : Resources) : Resources :=
  { resources := [], stopLog := rs.stopLog ++ rs.resources.map Prod.snd }

/-- The `apiHandler` session state: the authenticated entity (`none` models
the nil `state.Entity` interface before login), the resource table, and the
connection metadata.  The backing `state.State` handle and the `rpc.Conn` are
opaque collaborators and are omitted. -/
structure apiHandler where
  entity : Option Entity
  resources : Resources
  modelUUID : String
  serverHost : String

/-- `apiHandler.Kill` cleans up by stopping all session resources
(`r.resources.StopAll()`). -/
def apiHandler.Kill (r : apiHandler) : apiHandler :=
  { r with resources := r.resources.StopAll }

/-- `GetAuthTag` returns `r.entity.Tag()`.  When `entity` is nil (the
connection has not logged in) the Go method call on a nil interface value
panics; the panic is modelled as `Except.error GoCrash.nilEntityDeref`. -/
def apiHandler.GetAuthTag (r : apiHandler) : Except GoCrash Tag :=
  match r.entity with
  | none => .error .nilEntityDeref
  | some e => .ok e.tag

/-- `AuthMachineAgent` performs the Go type assertion
`r.GetAuthTag().(names.MachineTag)` and reports whether it matched. -/
def apiHandler.AuthMachineAgent (r : apiHandler) : Except GoCrash Bool :=
  match r.GetAuthTag with
  | .error c => .error c
  | .ok t => .ok (match t with | .machine _ => true | _ => false)

/-- `AuthUnitAgent` performs the Go type assertion
`r.GetAuthTag().(names.UnitTag)` and reports whether it matched. -/
def apiHandler.AuthUnitAgent (r : apiHandler) : Except GoCrash Bool :=
  match r.GetAuthTag with
  | .error c => .error c
  | .ok t => .ok (match t with | .unit _ => true | _ => false)

/-- `AuthClient` performs the Go type assertion
`r.GetAuthTag().(names.UserTag)` and reports whether it matched. -/
def apiHandler.AuthClient (r : apiHandler) : Except GoCrash Bool :=
  match r.GetAuthTag with
  | .error c => .error c
  | .ok t => .ok (match t with | .user _ => true | _ => false)

/-- `AuthOwner` returns `r.entity.Tag() == tag`: structural equality of the
authenticated entity's own tag with the given tag. -/
def apiHandler.AuthOwner (r : apiHandler) (tag : Tag) : Except GoCrash Bool :=
  match r.GetAuthTag with
  | .error c => .error c
  | .ok t => .ok (decide (t = tag))

/-- `ConnectedModel` returns the model UUID the login was made against. -/
def apiHandler.ConnectedModel (r : apiHandler) : String :=
  r.modelUUID

/-- The error kinds surfaced at the dispatch boundary.
`callNotImplemented` is `rpcreflect.CallNotImplementedError` (carrying
RootMethod, Version and the optional Method); `notFound` is the registry's
not-found error; `methodNotFound` is `rpcreflect.ErrMethodNotFound`;
`requestError` is `rpc.RequestError` with its code and message;
`internalTypeError` is the internal-consistency error built by the creator,
carrying the facade name, version, the declared type name and the actual
type name. -/
inductive RpcError where
  | callNotImplemented (rootMethod : String) (version : Int) (method : Option String)
  | notFound (msg : String)
  | methodNotFound
  | requestError (code : String) (message : String)
  | internalTypeError (rootName : String) (version : Int) (declared : String) (actual : String)
  | factoryFailure (msg : String)
deriving DecidableEq

/-- `errors.IsNotFound`: recognises the registry's not-found error kind. -/
def RpcError.IsNotFound : RpcError → Bool
  | .notFound _ => true
  | _ => false

/-- `params.CodeNotSupported`, the code carried by the unsupported-client
version error. -/
def CodeNotSupported : String := "not supported"

/-- A Go runtime type, as far as the dispatcher inspects one: its name,
whether it is an interface kind, the interfaces it is assignable to, and its
method set (used by `rpcreflect.ObjTypeOf(goType).Method`). -/
structure GoType where
  name : String
  isInterface : Bool
  implements : List String
  methods : List String
deriving DecidableEq

/-- `reflect.Type.AssignableTo`: a type is assignable to itself, and to an
interface type it implements. -/
def GoType.AssignableTo (t u : GoType) : Bool :=
  decide (t = u) || (u.isInterface && t.implements.contains u.name)

/-- A `reflect.Value` as the dispatcher sees it: its runtime type and an
opaque identity for the underlying object instance. -/
structure GoValue where
  ty : GoType
  val : Nat
deriving DecidableEq

/-- `rpcreflect.ObjMethod`: the descriptor for one callable method. -/
structure ObjMethod where
  name : String
deriving DecidableEq

/-- Modelled from the spec: `rpcreflect.ObjTypeOf(goType).Method(methodName)`
(rpc/rpcreflect is not under src/) returns the method descriptor when the
method set contains the name, and `ErrMethodNotFound` otherwise. -/
def ObjTypeMethod (t : GoType) (methodName : String) : Except RpcError ObjMethod :=
  if t.methods.contains methodName then .ok ⟨methodName⟩ else .error .methodNotFound

/-- One registration in the facade registry: the declared capability type and
the constructor for a (name, version) key.  The facade context handed to the
factory is reduced to the object id, the only per-call datum the claims
exercise. -/
structure FacadeRecord where
  name : String
  version : Int
  goType : GoType
  factory : String → Except RpcError GoValue

/-- Modelled from the spec: the global facade registry `common.Facades` (not
under src/): a read-only table of registrations, keyed by (name, version). -/
structure Registry where
  entries : List FacadeRecord

/-- Modelled from the spec: `GetType(name, version)` returns the declared
capability type, or a not-found error when the (name, version) key is not
registered. -/
def Registry.GetType (reg : Registry) (name : String) (version : Int) :
    Except RpcError GoType :=
  match reg.entries.find? (fun rec => rec.name == name && rec.version == version) with
  | some rec => .ok rec.goType
  | none => .error (.notFound "facade not found")

/-- Modelled from the spec: `GetFactory(name, version)` returns the registered
constructor, or a not-found error when the key is not registered. -/
def Registry.GetFactory (reg : Registry) (name : String) (version : Int) :
    Except RpcError (String → Except RpcError GoValue) :=
  match reg.entries.find? (fun rec => rec.name == name && rec.version == version) with
  | some rec => .ok rec.factory
  | none => .error (.notFound "facade factory not found")

/-- The translation of `lookupMethod` (src): resolve the declared type via
`GetType` — turning a not-found error into `CallNotImplementedError` without a
method name — then resolve the method descriptor — turning
`ErrMethodNotFound` into `CallNotImplementedError` carrying the method
name. -/
def lookupMethod (reg : Registry) (rootName : String) (version : Int)
    (methodName : String) : Except RpcError (GoType × ObjMethod) :=
  match reg.GetType rootName version with
  | .error err =>
      if err.IsNotFound then
        .error (.callNotImplemented rootName version none)
      else
        .error err
  | .ok goType =>
      match ObjTypeMethod goType methodName with
      | .error err =>
          if err = .methodNotFound then
            .error (.callNotImplemented rootName version (some methodName))
          else
            .error err
      | .ok objMethod => .ok (goType, objMethod)

/-- The per-connection cache key: (facade name, version, object id). -/
structure objectKey where
  name : String
  version : Int
  objId : String
deriving DecidableEq

/-- The per-connection object cache `map[objectKey]reflect.Value`, embedded as
an association list whose first match wins. -/
abbrev Cache := List (objectKey × GoValue)

/-- Lookup in the object cache. -/
def cacheLookup (c : Cache) (k : objectKey) : Option GoValue :=
  match c with
  | [] => none
  | (k2, v) :: rest => if k2 = k then some v else cacheLookup rest k

instance instDecEqExcept {ε α : Type} [DecidableEq ε] [DecidableEq α] :
    DecidableEq (Except ε α) := fun a b =>
  match a, b with
  | .error e, .error f =>
      if h : e = f then isTrue (by rw [h]) else isFalse (fun hc => h (by injection hc))
  | .error _, .ok _ => isFalse (fun hc => Except.noConfusion hc)
  | .ok _, .error _ => isFalse (fun hc => Except.noConfusion hc)
  | .ok x, .ok y =>
      if h : x = y then isTrue (by rw [h]) else isFalse (fun hc => h (by injection hc))

/-- The observable outcome of one run of the creator closure: the returned
value or error, the cache afterwards, and whether the registry factory was
invoked during this run. -/
structure creatorOutcome where
  result : Except RpcError GoValue
  cache : Cache
  factoryCalled : Bool
deriving DecidableEq

/-- The write-locked section of the creator closure (the body between
`objectMutex.Lock()` and the return): re-check the cache, fetch the factory,
construct the object, check assignability to the declared type, re-wrap an
interface-typed result, and insert into the cache. -/
def writeLocked (reg : Registry) (goType : GoType) (rootName : String)
    (version : Int) (id : String) (cache : Cache) : creatorOutcome :=
  let objKey : objectKey := ⟨rootName, version, id⟩
  match cacheLookup cache objKey with
  | some objValue => ⟨.ok objValue, cache, false⟩
  | none =>
    match reg.GetFactory rootName version with
    | .error err => ⟨.error err, cache, false⟩
    | .ok factory =>
      match factory id with
      | .error err => ⟨.error err, cache, true⟩
      | .ok obj =>
        if obj.ty.AssignableTo goType then
          let objValue : GoValue :=
            if goType.isInterface then { ty := goType, val := obj.val } else obj
          ⟨.ok objValue, (objKey, objValue) :: cache, true⟩
        else
          ⟨.error (.internalTypeError rootName version goType.name obj.ty.name),
            cache, true⟩

/-- The creator closure built by `apiRoot.FindMethod`, run to completion by a
single caller: the read-locked cache check, then (on a miss) the write-locked
section `writeLocked`. -/
def creator (reg : Registry) (goType : GoType) (rootName : String)
    (version : Int) (cache : Cache) (id : String) : creatorOutcome :=
  let objKey : objectKey := ⟨rootName, version, id⟩
  match cacheLookup cache objKey with
  | some objValue => ⟨.ok objValue, cache, false⟩
  | none => writeLocked reg goType rootName version id cache

/-- Our `srvCaller`: the method descriptor plus the creator closure
(parameterized by the cache state and the object id). -/
structure srvCaller where
  objMethod : ObjMethod
  creator : Cache → String → creatorOutcome

/-- The translation of `apiRoot.FindMethod` (src): resolve via `lookupMethod`,
propagate its error, and otherwise wrap the descriptor and the creator
closure in a `srvCaller`. -/
def apiRoot.FindMethod (reg : Registry) (rootName : String) (version : Int)
    (methodName : String) : Except RpcError srvCaller :=
  match lookupMethod reg rootName version methodName with
  | .error err => .error err
  | .ok (goType, objMethod) =>
      .ok { objMethod := objMethod,
            creator := fun cache id => creator reg goType rootName version cache id }

/-- The `apiRoot` dispatcher state: the session resource table and the
per-connection object cache.  The backing state handle and the authorizer are
opaque collaborators. -/
structure apiRoot where
  resources : Resources
  objectCache : Cache

/-- `apiRoot.Kill` stops the root's resources (`r.resources.StopAll()`). -/
def apiRoot.Kill (r : apiRoot) : apiRoot :=
  { r with resources := r.resources.StopAll }

/-- The `anonRoot` pre-login dispatcher: the shared session state plus the
version-indexed admin API objects (`map[int]interface` embedded as an
association list), generic in the admin implementation type. -/
structure anonRoot (α : Type) where
  handler : apiHandler
  adminAPIs : List (Int × α)

/-- The translation of `anonRoot.FindMethod` (src), parameterized by the
resolution function of rpc/rpcreflect (`rpcreflect.ValueOf(...).FindMethod`,
not under src/): any root other than Admin fails with
`CallNotImplementedError`; a registered admin version delegates to that
version's implementation object with method-set version 0; an unregistered
version fails with the `CodeNotSupported` request error. -/
def anonRoot.FindMethod {α β : Type}
    (valueFindMethod : α → String → Int → String → Except RpcError β)
    (r : anonRoot α) (rootName : String) (version : Int) (methodName : String) :
    Except RpcError β :=
  if rootName ≠ "Admin" then
    .error (.callNotImplemented rootName version none)
  else
    match r.adminAPIs.lookup version with
    | some api => valueFindMethod api rootName 0 methodName
    | none =>
        .error (.requestError CodeNotSupported
          "this version of Juju does not support login from old clients")

/-- One element of the registry enumeration `common.Facades.List()`
(modelled from the spec: name plus supported versions, in registry order). -/
structure FacadeDescription where
  name : String
  versions : List Int
deriving DecidableEq

/-- `params.FacadeVersions`, the wire structure filled by
`DescribeFacades`. -/
structure FacadeVersions where
  name : String
  versions : List Int
deriving DecidableEq

/-- The translation of `DescribeFacades` (src): allocate a result of the same
length as the registry enumeration and copy each entry's name and versions
into the slot of the same index. -/
def DescribeFacades (facades : List FacadeDescription) : List FacadeVersions :=
  facades.map (fun f => { name := f.name, versions := f.versions })

/-- The fixed parameters of one resolution key on one connection: the
registry, the declared type already resolved by `lookupMethod`, and the
(rootName, version, objectId) triple every concurrent caller uses. -/
structure DispatchEnv where
  reg : Registry
  goType : GoType
  rootName : String
  version : Int
  objId : String

/-- The cache key of a dispatch environment. -/
def DispatchEnv.key (env : DispatchEnv) : objectKey :=
  ⟨env.rootName, env.version, env.objId⟩

/-- The value the creator caches for a successfully constructed object `obj`:
an interface-typed declaration re-wraps the object at the declared type,
otherwise the object is cached as constructed. -/
def DispatchEnv.constructedValue (env : DispatchEnv) (obj : GoValue) : GoValue :=
  if env.goType.isInterface then { ty := env.goType, val := obj.val } else obj

/-- The control point of one caller running the creator closure.  Every
access to the object cache in the source happens under the `objectMutex`
read or write lock, so each locked region is one atomic step: `start` is
before the read-locked lookup, `locked` is waiting to run the write-locked
section, and `finished` records the caller's returned value or error. -/
inductive Phase where
  | start
  | locked
  | finished (result : Except RpcError GoValue)
deriving DecidableEq

/-- Whether a caller has returned. -/
def Phase.isFinished : Phase → Bool
  | .finished _ => true
  | _ => false

/-- The shared state of N concurrent callers of the creator closure for one
key: the connection's object cache, the number of registry-factory
invocations performed for this key, and each caller's control point. -/
structure DispatchSys where
  cache : Cache
  calls : Nat
  phases : List Phase
deriving Inhabited

/-- One atomic step of caller `i`: from `start`, the read-locked lookup
either returns a cached value or falls through to wait for the write lock;
from `locked`, the write-locked section `writeLocked` runs atomically
(re-check, construct, type-check, insert).  A finished caller, or an index
out of range, leaves the state unchanged. -/
def sysStep (env : DispatchEnv) (s : DispatchSys) (i : Nat) : DispatchSys :=
  match s.phases[i]? with
  | none => s
  | some .start =>
      match cacheLookup s.cache env.key with
      | some v => { s with phases := s.phases.set i (.finished (.ok v)) }
      | none => { s with phases := s.phases.set i .locked }
  | some .locked =>
      let out := writeLocked env.reg env.goType env.rootName env.version env.objId s.cache
      { cache := out.cache,
        calls := s.calls + (if out.factoryCalled then 1 else 0),
        phases := s.phases.set i (.finished out.result) }
  | some (.finished _) => s

/-- Run a schedule: a list of caller indices, each performing its next atomic
step in turn.  Every interleaving of the N callers is some schedule. -/
def sysRun (env : DispatchEnv) (s : DispatchSys) (schedule : List Nat) : DispatchSys :=
  schedule.foldl (sysStep env) s

/-- The initial state of N concurrent callers over a cache `c0`. -/
def initSys (c0 : Cache) (n : Nat) : DispatchSys :=
  { cache := c0, calls := 0, phases := List.replicate n .start }

/-- All callers have returned. -/
def allFinished (s : DispatchSys) : Bool :=
  s.phases.all Phase.isFinished

/-- A resolution key whose factory is registered and succeeds, returning an
object assignable to the declared type: the setting of the single-construction
claim. -/
def GoodFactory (env : DispatchEnv) (fac : String → Except RpcError GoValue)
    (obj : GoValue) : Prop :=
  env.reg.GetFactory env.rootName env.version = .ok fac ∧
  fac env.objId = .ok obj ∧
  obj.ty.AssignableTo env.goType = true

/-- The double-checked-locking invariant: either nothing has happened for the
key (no cache entry, no factory call, nobody finished), or the construction
has happened exactly once and every finished caller got the cached value. -/
def DispatchInv (env : DispatchEnv) (v : GoValue) (s : DispatchSys) : Prop :=
  (cacheLookup s.cache env.key = none ∧ s.calls = 0 ∧
      ∀ p ∈ s.phases, p.isFinished = false) ∨
  (cacheLookup s.cache env.key = some v ∧ s.calls = 1 ∧
      ∀ p ∈ s.phases, ∀ r, p = .finished r → r = .ok v)

theorem cacheLookup_cons_self (k : objectKey) (v : GoValue) (c : Cache) :
    cacheLookup ((k, v) :: c) k = some v := by
  simp [cacheLookup]

theorem writeLocked_hit (env : DispatchEnv) (cache : Cache) (v : GoValue)
    (hhit : cacheLookup cache env.key = some v) :
    writeLocked env.reg env.goType env.rootName env.version env.objId cache =
      ⟨.ok v, cache, false⟩ := by
  simp [DispatchEnv.key] at hhit
  simp [writeLocked, hhit]

theorem writeLocked_miss (env : DispatchEnv) (fac : String → Except RpcError GoValue)
    (obj : GoValue) (h : GoodFactory env fac obj) (cache : Cache)
    (hmiss : cacheLookup cache env.key = none) :
    writeLocked env.reg env.goType env.rootName env.version env.objId cache =
      ⟨.ok (env.constructedValue obj),
        (env.key, env.constructedValue obj) :: cache, true⟩ := by
  obtain ⟨h1, h2, h3⟩ := h
  simp [DispatchEnv.key] at hmiss
  simp [writeLocked, hmiss, h1, h2, h3, DispatchEnv.key, DispatchEnv.constructedValue]

theorem sysStep_oob (env : DispatchEnv) (s : DispatchSys) (i : Nat)
    (h : s.phases[i]? = none) : sysStep env s i = s := by
  simp [sysStep, h]

theorem sysStep_start_miss (env : DispatchEnv) (s : DispatchSys) (i : Nat)
    (h1 : s.phases[i]? = some .start)
    (h2 : cacheLookup s.cache env.key = none) :
    sysStep env s i = { s with phases := s.phases.set i .locked } := by
  simp [sysStep, h1, h2]

theorem sysStep_start_hit (env : DispatchEnv) (s : DispatchSys) (i : Nat)
    (v : GoValue) (h1 : s.phases[i]? = some .start)
    (h2 : cacheLookup s.cache env.key = some v) :
    sysStep env s i = { s with phases := s.phases.set i (.finished (.ok v)) } := by
  simp [sysStep, h1, h2]

theorem sysStep_locked (env : DispatchEnv) (s : DispatchSys) (i : Nat)
    (h1 : s.phases[i]? = some .locked) :
    sysStep env s i =
      { cache := (writeLocked env.reg env.goType env.rootName env.version env.objId s.cache).cache,
        calls := s.calls +
          (if (writeLocked env.reg env.goType env.rootName env.version env.objId s.cache).factoryCalled
            then 1 else 0),
        phases := s.phases.set i
          (.finished (writeLocked env.reg env.goType env.rootName env.version env.objId s.cache).result) } := by
  simp [sysStep, h1]

theorem sysStep_finished (env : DispatchEnv) (s : DispatchSys) (i : Nat)
    (r : Except RpcError GoValue) (h1 : s.phases[i]? = some (.finished r)) :
    sysStep env s i = s := by
  simp [sysStep, h1]

theorem dispatchInv_step (env : DispatchEnv) (fac : String → Except RpcError GoValue)
    (obj : GoValue) (h : GoodFactory env fac obj) (s : DispatchSys) (i : Nat)
    (hinv : DispatchInv env (env.constructedValue obj) s) :
    DispatchInv env (env.constructedValue obj) (sysStep env s i) := by
  cases hget : s.phases[i]? with
  | none => rw [sysStep_oob env s i hget]; exact hinv
  | some p =>
    cases p with
    | start =>
      cases hcl : cacheLookup s.cache env.key with
      | none =>
        rw [sysStep_start_miss env s i hget hcl]
        rcases hinv with ⟨hc, hcalls, hph⟩ | ⟨hc, hcalls, hph⟩
        · left
          refine ⟨hc, hcalls, ?_⟩
          intro p hp
          rcases List.mem_or_eq_of_mem_set hp with hmem | rfl
          · exact hph p hmem
          · rfl
        · rw [hc] at hcl
          exact absurd hcl (by simp)
      | some w =>
        rw [sysStep_start_hit env s i w hget hcl]
        rcases hinv with ⟨hc, hcalls, hph⟩ | ⟨hc, hcalls, hph⟩
        · rw [hc] at hcl
          exact absurd hcl (by simp)
        · obtain rfl : w = env.constructedValue obj := by
            rw [hc] at hcl
            injection hcl with hw
            exact hw.symm
          right
          refine ⟨hc, hcalls, ?_⟩
          intro p hp r hr
          rcases List.mem_or_eq_of_mem_set hp with hmem | rfl
          · exact hph p hmem r hr
          · injection hr with hr2
            exact hr2.symm
    | locked =>
      rw [sysStep_locked env s i hget]
      rcases hinv with ⟨hc, hcalls, hph⟩ | ⟨hc, hcalls, hph⟩
      · rw [writeLocked_miss env fac obj h s.cache hc]
        right
        refine ⟨?_, ?_, ?_⟩
        · exact cacheLookup_cons_self _ _ _
        · simp [hcalls]
        · intro p hp r hr
          rcases List.mem_or_eq_of_mem_set hp with hmem | rfl
          · have hfin := hph p hmem
            rw [hr] at hfin
            exact absurd hfin (by simp [Phase.isFinished])
          · injection hr with hr2
            exact hr2.symm
      · rw [writeLocked_hit env s.cache _ hc]
        right
        refine ⟨hc, by simp [hcalls], ?_⟩
        intro p hp r hr
        rcases List.mem_or_eq_of_mem_set hp with hmem | rfl
        · exact hph p hmem r hr
        · injection hr with hr2
          exact hr2.symm
    | finished r =>
      rw [sysStep_finished env s i r hget]
      exact hinv

theorem dispatchInv_run (env : DispatchEnv) (fac : String → Except RpcError GoValue)
    (obj : GoValue) (h : GoodFactory env fac obj) (s : DispatchSys)
    (schedule : List Nat)
    (hinv : DispatchInv env (env.constructedValue obj) s) :
    DispatchInv env (env.constructedValue obj) (sysRun env s schedule) := by
  induction schedule generalizing s with
  | nil => exact hinv
  | cons i tl ih => exact ih (sysStep env s i) (dispatchInv_step env fac obj h s i hinv)

theorem sysStep_length (env : DispatchEnv) (s : DispatchSys) (i : Nat) :
    (sysStep env s i).phases.length = s.phases.length := by
  cases hget : s.phases[i]? with
  | none => rw [sysStep_oob env s i hget]
  | some p =>
    cases p with
    | start =>
      cases hcl : cacheLookup s.cache env.key with
      | none => rw [sysStep_start_miss env s i hget hcl]; exact List.length_set ..
      | some w => rw [sysStep_start_hit env s i w hget hcl]; exact List.length_set ..
    | locked => rw [sysStep_locked env s i hget]; exact List.length_set ..
    | finished r => rw [sysStep_finished env s i r hget]

theorem sysRun_length (env : DispatchEnv) (s : DispatchSys) (schedule : List Nat) :
    (sysRun env s schedule).phases.length = s.phases.length := by
  induction schedule generalizing s with
  | nil => rfl
  | cons i tl ih => rw [show sysRun env s (i :: tl) = sysRun env (sysStep env s i) tl from rfl,
      ih (sysStep env s i), sysStep_length]

/-- C1: for a fixed (rootName, version, objectId) key on one connection's
root dispatcher, any interleaved schedule of N concurrent resolutions
through the creator closure that runs all callers to completion performs
exactly one invocation of the registry factory for that key, every caller
receives the same constructed facade instance, and that instance is the one
cached for the key. -/
theorem apiRoot_creator_single_construction
    (env : DispatchEnv) (fac : String → Except RpcError GoValue) (obj : GoValue)
    (c0 : Cache) (n : Nat) (schedule : List Nat)
    (hfac : env.reg.GetFactory env.rootName env.version = .ok fac)
    (hobj : fac env.objId = .ok obj)
    (hassign : obj.ty.AssignableTo env.goType = true)
    (hc0 : cacheLookup c0 env.key = none)
    (hn : 0 < n)
    (hfin : allFinished (sysRun env (initSys c0 n) schedule) = true) :
    (sysRun env (initSys c0 n) schedule).calls = 1 ∧
    (∀ p ∈ (sysRun env (initSys c0 n) schedule).phases,
        p = Phase.finished (.ok (env.constructedValue obj))) ∧
    cacheLookup (sysRun env (initSys c0 n) schedule).cache env.key =
      some (env.constructedValue obj) := by
  have hgood : GoodFactory env fac obj := ⟨hfac, hobj, hassign⟩
  have hinv0 : DispatchInv env (env.constructedValue obj) (initSys c0 n) := by
    left
    refine ⟨hc0, rfl, ?_⟩
    intro p hp
    have hps := List.eq_of_mem_replicate (show p ∈ List.replicate n Phase.start from hp)
    simp [hps, Phase.isFinished]
  have hinv := dispatchInv_run env fac obj hgood (initSys c0 n) schedule hinv0
  have hall : ∀ p ∈ (sysRun env (initSys c0 n) schedule).phases, p.isFinished = true := by
    intro p hp
    exact List.all_eq_true.mp hfin p hp
  rcases hinv with ⟨hc, hcalls, hph⟩ | ⟨hc, hcalls, hph⟩
  · have hlen : (sysRun env (initSys c0 n) schedule).phases.length = n := by
      rw [sysRun_length]
      simp [initSys]
    have hpos : 0 < (sysRun env (initSys c0 n) schedule).phases.length := by
      rw [hlen]; exact hn
    obtain ⟨p, hp⟩ := List.exists_mem_of_length_pos hpos
    have hft := hall p hp
    rw [hph p hp] at hft
    exact absurd hft (by simp)
  · refine ⟨hcalls, ?_, hc⟩
    intro p hp
    have hfinp := hall p hp
    cases p with
    | start => simp [Phase.isFinished] at hfinp
    | locked => simp [Phase.isFinished] at hfinp
    | finished r => rw [hph (Phase.finished r) hp r rfl]

/-- A concrete facade type used to exercise the dispatcher. -/
def loggerTy : GoType := { name := "LoggerAPI", isInterface := false, implements := [], methods := ["Log"] }

/-- A concrete constructed facade object. -/
def loggerObj : GoValue := { ty := loggerTy, val := 7 }

/-- A concrete registry factory that always constructs `loggerObj`. -/
def loggerFactory : String → Except RpcError GoValue := fun _ => .ok loggerObj

/-- A concrete registry with the Logger facade at version 1. -/
def loggerReg : Registry :=
  { entries := [{ name := "Logger", version := 1, goType := loggerTy, factory := loggerFactory }] }

/-- The concrete resolution environment for (Logger, 1, ""). -/
def loggerEnv : DispatchEnv :=
  { reg := loggerReg, goType := loggerTy, rootName := "Logger", version := 1, objId := "" }

theorem apiRoot_creator_single_construction_witness :
    (sysRun loggerEnv (initSys [] 2) [0, 1, 0, 1]).calls = 1 ∧
    (∀ p ∈ (sysRun loggerEnv (initSys [] 2) [0, 1, 0, 1]).phases,
        p = Phase.finished (.ok (loggerEnv.constructedValue loggerObj))) ∧
    cacheLookup (sysRun loggerEnv (initSys [] 2) [0, 1, 0, 1]).cache loggerEnv.key =
      some (loggerEnv.constructedValue loggerObj) :=
  apiRoot_creator_single_construction loggerEnv loggerFactory loggerObj [] 2 [0, 1, 0, 1]
    rfl rfl (by decide) rfl (by decide) (by decide)

/-- C4: when the registry factory fails during lazy construction, the creator
closure propagates the factory's error unchanged, leaves the object cache
exactly as it was, and a subsequent resolution of the same key invokes the
factory again. -/
theorem creator_factory_error_propagated
    (reg : Registry) (goType : GoType) (rootName : String) (version : Int)
    (cache : Cache) (id : String) (fac : String → Except RpcError GoValue)
    (e : RpcError)
    (hmiss : cacheLookup cache ⟨rootName, version, id⟩ = none)
    (hfac : reg.GetFactory rootName version = .ok fac)
    (herr : fac id = .error e) :
    creator reg goType rootName version cache id = ⟨.error e, cache, true⟩ ∧
    (creator reg goType rootName version
        (creator reg goType rootName version cache id).cache id).factoryCalled = true := by
  have h1 : creator reg goType rootName version cache id = ⟨.error e, cache, true⟩ := by
    simp [creator, hmiss, writeLocked, hfac, herr]
  refine ⟨h1, ?_⟩
  rw [h1]
  simp [creator, hmiss, writeLocked, hfac, herr]

/-- A factory that fails, for exercising the construction-failure path. -/
def failFactory : String → Except RpcError GoValue :=
  fun _ => .error (.factoryFailure "backing store misconfigured")

/-- A registry whose Logger factory fails. -/
def failReg : Registry :=
  { entries := [{ name := "Logger", version := 1, goType := loggerTy, factory := failFactory }] }

theorem creator_factory_error_propagated_witness :
    creator failReg loggerTy "Logger" 1 [] "" =
      ⟨.error (.factoryFailure "backing store misconfigured"), [], true⟩ ∧
    (creator failReg loggerTy "Logger" 1
        (creator failReg loggerTy "Logger" 1 [] "").cache "").factoryCalled = true :=
  creator_factory_error_propagated failReg loggerTy "Logger" 1 [] "" failFactory
    (.factoryFailure "backing store misconfigured") rfl rfl rfl

/-- C5: when the factory returns an object whose runtime type is not
assignable to the type the registry declared for the key, the creator returns
the internal-consistency error naming the facade, its version, the declared
type and the actual type, caches nothing, and terminates normally with that
error value. -/
theorem creator_type_mismatch_error
    (reg : Registry) (goType : GoType) (rootName : String) (version : Int)
    (cache : Cache) (id : String) (fac : String → Except RpcError GoValue)
    (obj : GoValue)
    (hmiss : cacheLookup cache ⟨rootName, version, id⟩ = none)
    (hfac : reg.GetFactory rootName version = .ok fac)
    (hobj : fac id = .ok obj)
    (hbad : obj.ty.AssignableTo goType = false) :
    creator reg goType rootName version cache id =
      ⟨.error (.internalTypeError rootName version goType.name obj.ty.name),
        cache, true⟩ := by
  simp [creator, hmiss, writeLocked, hfac, hobj, hbad]

/-- A runtime type different from the declared Logger type. -/
def bogusTy : GoType := { name := "BogusAPI", isInterface := false, implements := [], methods := [] }

/-- An object of the wrong runtime type. -/
def bogusObj : GoValue := { ty := bogusTy, val := 3 }

/-- A factory that returns an object of the wrong type. -/
def bogusFactory : String → Except RpcError GoValue := fun _ => .ok bogusObj

/-- A registry whose Logger registration declares `loggerTy` but whose factory
builds a `bogusTy` object. -/
def bogusReg : Registry :=
  { entries := [{ name := "Logger", version := 1, goType := loggerTy, factory := bogusFactory }] }

theorem creator_type_mismatch_error_witness :
    creator bogusReg loggerTy "Logger" 1 [] "" =
      ⟨.error (.internalTypeError "Logger" 1 loggerTy.name bogusObj.ty.name),
        [], true⟩ :=
  creator_type_mismatch_error bogusReg loggerTy "Logger" 1 [] "" bogusFactory bogusObj
    rfl rfl rfl (by decide)

/-- C3: for any (rootName, version, methodName) combination not present in
the registry — the (rootName, version) key unregistered, or registered but
lacking the method — `apiRoot.FindMethod` returns the single
`CallNotImplementedError` kind carrying the offending identifiers. -/
theorem apiRoot_findMethod_not_implemented
    (reg : Registry) (rootName : String) (version : Int) (methodName : String) :
    (reg.entries.find? (fun fr => fr.name == rootName && fr.version == version) = none →
      apiRoot.FindMethod reg rootName version methodName =
        .error (.callNotImplemented rootName version none)) ∧
    (∀ fr, reg.entries.find? (fun fr => fr.name == rootName && fr.version == version) = some fr →
      fr.goType.methods.contains methodName = false →
      apiRoot.FindMethod reg rootName version methodName =
        .error (.callNotImplemented rootName version (some methodName))) := by
  constructor
  · intro hnone
    simp [apiRoot.FindMethod, lookupMethod, Registry.GetType, hnone, RpcError.IsNotFound]
  · intro fr hsome hmeth
    have hnm : methodName ∉ fr.goType.methods := by simpa using hmeth
    simp [apiRoot.FindMethod, lookupMethod, Registry.GetType, hsome, ObjTypeMethod, hnm]

theorem apiRoot_findMethod_not_implemented_witness :
    apiRoot.FindMethod { entries := [] } "Logger" 1 "Log" =
      .error (.callNotImplemented "Logger" 1 none) ∧
    apiRoot.FindMethod loggerReg "Logger" 1 "Bogus" =
      .error (.callNotImplemented "Logger" 1 (some "Bogus")) :=
  ⟨(apiRoot_findMethod_not_implemented { entries := [] } "Logger" 1 "Log").1 rfl,
   (apiRoot_findMethod_not_implemented loggerReg "Logger" 1 "Bogus").2
     { name := "Logger", version := 1, goType := loggerTy, factory := loggerFactory }
     rfl (by decide)⟩

/-- The error kind of a boundary error, as the specification's taxonomy names
them: two errors are of the same kind exactly when their constructors
agree. -/
def RpcError.kind : RpcError → String
  | .callNotImplemented .. => "call not implemented"
  | .notFound _ => "not found"
  | .methodNotFound => "method not found"
  | .requestError .. => "request error"
  | .internalTypeError .. => "internal inconsistency"
  | .factoryFailure _ => "construction failure"

/-- C2: on the anonymous root, any root other than Admin fails with the
call-not-implemented error kind; Admin with a registered version delegates
method resolution to that version's admin implementation object; Admin with
an unregistered version fails with the unsupported-client-version request
error, a kind distinct from call-not-implemented. -/
theorem anonRoot_findMethod_dispatch {α β : Type}
    (valueFindMethod : α → String → Int → String → Except RpcError β)
    (r : anonRoot α) (rootName : String) (version : Int) (methodName : String) :
    (rootName ≠ "Admin" →
      anonRoot.FindMethod valueFindMethod r rootName version methodName =
        .error (.callNotImplemented rootName version none)) ∧
    (∀ api, rootName = "Admin" → r.adminAPIs.lookup version = some api →
      anonRoot.FindMethod valueFindMethod r rootName version methodName =
        valueFindMethod api rootName 0 methodName) ∧
    (rootName = "Admin" → r.adminAPIs.lookup version = none →
      anonRoot.FindMethod valueFindMethod r rootName version methodName =
        .error (.requestError CodeNotSupported
          "this version of Juju does not support login from old clients") ∧
      RpcError.kind (.requestError CodeNotSupported
          "this version of Juju does not support login from old clients") ≠
        RpcError.kind (.callNotImplemented rootName version (some methodName))) := by
  refine ⟨?_, ?_, ?_⟩
  · intro hne
    simp [anonRoot.FindMethod, hne]
  · intro api heq hlk
    subst heq
    simp [anonRoot.FindMethod, hlk]
  · intro heq hlk
    subst heq
    refine ⟨by simp [anonRoot.FindMethod, hlk], by simp [RpcError.kind]⟩

/-- A concrete admin-API table for the anonymous root: version 3 only. -/
def anonConn : anonRoot String :=
  { handler := { entity := none, resources := { resources := [], stopLog := [] },
                 modelUUID := "", serverHost := "" },
    adminAPIs := [(3, "adminV3")] }

/-- A concrete rpcreflect resolution function that records which
implementation object, root and method-set version it was asked about. -/
def recordingResolve : String → String → Int → String → Except RpcError (String × String × Int × String) :=
  fun api rn v m => .ok (api, rn, v, m)

theorem anonRoot_findMethod_dispatch_witness :
    anonRoot.FindMethod recordingResolve anonConn "Logger" 3 "Log" =
      .error (.callNotImplemented "Logger" 3 none) ∧
    anonRoot.FindMethod recordingResolve anonConn "Admin" 3 "Login" =
      recordingResolve "adminV3" "Admin" 0 "Login" ∧
    anonRoot.FindMethod recordingResolve anonConn "Admin" 99 "Login" =
      .error (.requestError CodeNotSupported
        "this version of Juju does not support login from old clients") ∧
    RpcError.kind (.requestError CodeNotSupported
        "this version of Juju does not support login from old clients") ≠
      RpcError.kind (.callNotImplemented "Admin" 99 (some "Login")) :=
  ⟨(anonRoot_findMethod_dispatch recordingResolve anonConn "Logger" 3 "Log").1 (by decide),
   (anonRoot_findMethod_dispatch recordingResolve anonConn "Admin" 3 "Login").2.1
     "adminV3" rfl rfl,
   (anonRoot_findMethod_dispatch recordingResolve anonConn "Admin" 99 "Login").2.2
     rfl rfl⟩

/-- C10: for a version present in the admin-API table, the anonymous root
resolves the method against that version's implementation object with the
method-set version fixed at 0; the client-supplied version only selects the
implementation object and does not appear in the delegated lookup. -/
theorem anonRoot_admin_fixed_version_zero {α β : Type}
    (valueFindMethod : α → String → Int → String → Except RpcError β)
    (r : anonRoot α) (version : Int) (api : α) (methodName : String)
    (hlk : r.adminAPIs.lookup version = some api) :
    anonRoot.FindMethod valueFindMethod r "Admin" version methodName =
      valueFindMethod api "Admin" 0 methodName := by
  simp [anonRoot.FindMethod, hlk]

theorem anonRoot_admin_fixed_version_zero_witness :
    anonRoot.FindMethod recordingResolve anonConn "Admin" 3 "Login" =
      recordingResolve "adminV3" "Admin" 0 "Login" :=
  anonRoot_admin_fixed_version_zero recordingResolve anonConn 3 "adminV3" "Login" rfl

/-- C6: killing the session stops every resource in the table exactly once,
and invoking the kill path a second time — through `apiHandler.Kill` or
`apiRoot.Kill` — stops nothing further: the double kill is the single kill,
and each entry of a fresh session's table appears exactly once in the stop
log.  `StopAll` is atomic under the table's own lock, so concurrent kill
invocations serialize to this sequential composition. -/
theorem kill_idempotent_stops_once (h : apiHandler) (r : apiRoot)
    (hlog : h.resources.stopLog = []) (rlog : r.resources.stopLog = []) :
    h.Kill.Kill = h.Kill ∧
    h.Kill.Kill.resources.stopLog = h.resources.resources.map Prod.snd ∧
    r.Kill.Kill = r.Kill ∧
    r.Kill.Kill.resources.stopLog = r.resources.resources.map Prod.snd ∧
    ∀ res, (h.resources.resources.map Prod.snd).Nodup →
      res ∈ h.resources.resources.map Prod.snd →
      h.Kill.Kill.resources.stopLog.count res = 1 := by
  refine ⟨?_, ?_, ?_, ?_, ?_⟩
  · simp [apiHandler.Kill, Resources.StopAll]
  · simp [apiHandler.Kill, Resources.StopAll, hlog]
  · simp [apiRoot.Kill, Resources.StopAll]
  · simp [apiRoot.Kill, Resources.StopAll, rlog]
  · intro res hnd hmem
    simp only [apiHandler.Kill, Resources.StopAll, hlog, List.nil_append, List.map_nil,
      List.append_nil]
    exact List.count_eq_one_of_mem hnd hmem

/-- A fresh session with three registered resources, as at connection
setup. -/
def freshSession : apiHandler :=
  { entity := none,
    resources := { resources := [("machineID", "res-machine"), ("dataDir", "res-data"),
                                  ("logDir", "res-log")],
                   stopLog := [] },
    modelUUID := "", serverHost := "" }

/-- A fresh root dispatcher sharing the same resource table shape. -/
def freshRoot : apiRoot :=
  { resources := freshSession.resources, objectCache := [] }

theorem kill_idempotent_stops_once_witness :
    freshSession.Kill.Kill = freshSession.Kill ∧
    freshSession.Kill.Kill.resources.stopLog.count "res-machine" = 1 :=
  ⟨(kill_idempotent_stops_once freshSession freshRoot rfl rfl).1,
   (kill_idempotent_stops_once freshSession freshRoot rfl rfl).2.2.2.2
     "res-machine" (by decide) (by decide)⟩

/-- The pre-login session: no authenticated entity (nil `state.Entity`). -/
def preLoginHandler : apiHandler :=
  { entity := none, resources := { resources := [], stopLog := [] },
    modelUUID := "", serverHost := "" }

/-- C7 counterexample: on an unauthenticated connection the auth predicates do
not return false — the nil entity makes `r.entity.Tag()` a nil interface
method call, which crashes instead. -/
theorem authPredicates_unauthenticated_crash :
    apiHandler.AuthMachineAgent preLoginHandler = .error .nilEntityDeref ∧
    apiHandler.AuthUnitAgent preLoginHandler = .error .nilEntityDeref ∧
    apiHandler.AuthClient preLoginHandler = .error .nilEntityDeref ∧
    apiHandler.AuthMachineAgent preLoginHandler ≠ .ok false ∧
    apiHandler.AuthUnitAgent preLoginHandler ≠ .ok false ∧
    apiHandler.AuthClient preLoginHandler ≠ .ok false := by
  decide

/-- C7 as amended: when an entity is set, `AuthMachineAgent`, `AuthUnitAgent`
and `AuthClient` return true exactly when the entity's identity kind is
machine, unit or user respectively, and false — not an error — on any
mismatch; when no entity is set, each call dereferences the nil entity and
crashes rather than returning false. -/
theorem authPredicates_kind_amended (r : apiHandler) :
    (∀ e, r.entity = some e →
      (r.AuthMachineAgent = .ok true ↔ e.tag.kind = "machine") ∧
      (r.AuthMachineAgent = .ok false ↔ e.tag.kind ≠ "machine") ∧
      (r.AuthUnitAgent = .ok true ↔ e.tag.kind = "unit") ∧
      (r.AuthUnitAgent = .ok false ↔ e.tag.kind ≠ "unit") ∧
      (r.AuthClient = .ok true ↔ e.tag.kind = "user") ∧
      (r.AuthClient = .ok false ↔ e.tag.kind ≠ "user")) ∧
    (r.entity = none →
      r.AuthMachineAgent = .error .nilEntityDeref ∧
      r.AuthUnitAgent = .error .nilEntityDeref ∧
      r.AuthClient = .error .nilEntityDeref) := by
  constructor
  · intro e he
    obtain ⟨t⟩ := e
    cases t <;>
      simp [apiHandler.AuthMachineAgent, apiHandler.AuthUnitAgent, apiHandler.AuthClient,
        apiHandler.GetAuthTag, he, Tag.kind]
  · intro hnone
    simp [apiHandler.AuthMachineAgent, apiHandler.AuthUnitAgent, apiHandler.AuthClient,
      apiHandler.GetAuthTag, hnone]

/-- A logged-in session for machine 0. -/
def machineHandler : apiHandler :=
  { entity := some { tag := .machine "0" },
    resources := { resources := [], stopLog := [] },
    modelUUID := "", serverHost := "" }

theorem authPredicates_kind_amended_witness :
    (machineHandler.AuthMachineAgent = .ok true ↔ (Tag.machine "0").kind = "machine") ∧
    preLoginHandler.AuthClient = .error .nilEntityDeref :=
  ⟨((authPredicates_kind_amended machineHandler).1 { tag := .machine "0" } rfl).1,
   ((authPredicates_kind_amended preLoginHandler).2 rfl).2.2⟩

/-- C8: with an authenticated entity, `AuthOwner(tag)` returns true exactly
when the given tag equals the entity's own tag, and returns false for every
other tag — in particular for a tag of the same kind with a different
identifier. -/
theorem authOwner_exact_match (r : apiHandler) (e : Entity) (t : Tag)
    (he : r.entity = some e) :
    (r.AuthOwner t = .ok true ↔ t = e.tag) ∧
    (t ≠ e.tag → r.AuthOwner t = .ok false) := by
  constructor
  · simp [apiHandler.AuthOwner, apiHandler.GetAuthTag, he]
    exact eq_comm
  · intro hne
    simp [apiHandler.AuthOwner, apiHandler.GetAuthTag, he]
    exact fun hcontra => hne hcontra.symm

theorem authOwner_exact_match_witness :
    machineHandler.AuthOwner (Tag.machine "1") = .ok false :=
  (authOwner_exact_match machineHandler { tag := .machine "0" } (Tag.machine "1") rfl).2
    (by decide)

/-- C9: `DescribeFacades` produces one (name, versions) pair for the entry at
each index of the registry enumeration — the same length, and at every index
exactly the name and versions of the enumeration's entry at that index, so
each entry appears exactly once and in registry order.  It reads nothing but
its input and performs no authorization check. -/
theorem describeFacades_enumeration (facades : List FacadeDescription) :
    (DescribeFacades facades).length = facades.length ∧
    ∀ i : Nat, (DescribeFacades facades)[i]? =
      (facades[i]?).map (fun f => { name := f.name, versions := f.versions }) := by
  constructor
  · simp [DescribeFacades]
  · intro i
    simp [DescribeFacades]
